/-
Verification of the geodesy reference-data package: ellipsoid and datum
value types, their derived accessors, and the built-in EPSG catalog.

Embedding conventions:
* Python floats are modelled as exact rationals (`ℚ`); the one
  transcendental operation, `e2 ** 0.5`, is modelled as a real-number
  power (`Real.rpow`) on the rational cast to `ℝ`.
* `dataclass(frozen=True)` types become Lean structures; the generated
  `__eq__` / `__hash__` compare respectively hash the tuple of declared
  fields, and are modelled as functions of that tuple only.
* `functools.cached_property` stores results in the instance `__dict__`,
  which the dataclass equality/hash never read; an `EllipsoidObj` pairs
  the stored fields with the set of cache flags to make that observable.
-/
import Mathlib

namespace Geodesy

/-- `Ellipsoid` dataclass from `geodesy/ellipsoid.py`: stored fields
`name`, `code`, `a` (semi-major axis), `f` (flattening), `remarks`. -/
structure Ellipsoid where
  name : String
  code : Nat
  a : ℚ
  f : ℚ
  remarks : Option String := none
  deriving DecidableEq

/-- `Ellipsoid.b`: semi-minor axis, `self.a * (1 - self.f)`. -/
def Ellipsoid.b (el : Ellipsoid) : ℚ := el.a * (1 - el.f)

/-- `Ellipsoid.e2`: first eccentricity squared, `2 * self.f - self.f**2`. -/
def Ellipsoid.e2 (el : Ellipsoid) : ℚ := 2 * el.f - el.f ^ 2

/-- `Ellipsoid.e`: first eccentricity, `self.e2**0.5` (real power). -/
noncomputable def Ellipsoid.e (el : Ellipsoid) : ℝ := (el.e2 : ℝ) ^ (0.5 : ℝ)

/-- `Ellipsoid.ep2`: second eccentricity squared, `self.e2 / (1 - self.e2)`. -/
def Ellipsoid.ep2 (el : Ellipsoid) : ℚ := el.e2 / (1 - el.e2)

/-- `Ellipsoid.urn`: `f"urn:ogc:def:ellipsoid:EPSG::{self.code}"`. -/
def Ellipsoid.urn (el : Ellipsoid) : String :=
  "urn:ogc:def:ellipsoid:EPSG::" ++ Nat.repr el.code

/-- `HelmertParameters` dataclass from `geodesy/datum.py`: the seven
Bursa-Wolf parameters, no derived computation. -/
structure HelmertParameters where
  tx : ℚ
  ty : ℚ
  tz : ℚ
  rx : ℚ
  ry : ℚ
  rz : ℚ
  s : ℚ
  deriving DecidableEq

/-- `Datum` dataclass from `geodesy/datum.py`. -/
structure Datum where
  name : String
  code : Nat
  ellipsoid : Ellipsoid
  to_wgs84 : Option HelmertParameters := none
  remarks : Option String := none
  deriving DecidableEq

/-- `Datum.urn`: `f"urn:ogc:def:datum:EPSG::{self.code}"`. -/
def Datum.urn (d : Datum) : String :=
  "urn:ogc:def:datum:EPSG::" ++ Nat.repr d.code

/-- `add_one` from `geodesy/__init__.py`: `return x + 1`. -/
def add_one (x : ℤ) : ℤ := x + 1

/-! ### Built-in ellipsoid catalog (`geodesy/ellipsoid.py`) -/

/-- Airy 1830 ellipsoid, EPSG 7001. -/
def AIRY_1830 : Ellipsoid where
  name := "Airy 1830"
  code := 7001
  a := 6377563.396
  f := 1 / 299.3249646
  remarks := some "Original definition is a=20923713, b=20853810 feet of 1796. 1/f is given to 7 decimal places. For the 1936 retriangulation OSGB defines the relationship of 10 feet of 1796 to the International metre through ([10^0.48401603]/10) exactly = 0.3048007491..."

/-- Clarke 1866 ellipsoid, EPSG 7008. -/
def CLARKE_1866 : Ellipsoid where
  name := "Clarke 1866"
  code := 7008
  a := 6378206.4
  f := 1 / 294.978698213898
  remarks := some "Original definition a=20926062 and b=20855121 (British) feet. Uses Clarke's 1865 inch-metre ratio of 39.370432 to obtain metres. (Metric value then converted to US survey feet for use in the US and international feet for use in Cayman Islands)."

/-- GRS 1980 ellipsoid, EPSG 7019. -/
def GRS_1980 : Ellipsoid where
  name := "GRS 1980"
  code := 7019
  a := 6378137.0
  f := 1 / 298.257222101
  remarks := some "Adopted by IUGG 1979 Canberra. Inverse flattening is derived from geocentric gravitational constant GM = 3986005e8 m*m*m/s/s; dynamic form factor J2 = 108263e-8 and Earth's angular velocity = 7292115e-11 rad/s."

/-- International 1924 ellipsoid, EPSG 7022. -/
def INTERNATIONAL_1924 : Ellipsoid where
  name := "International 1924"
  code := 7022
  a := 6378388.0
  f := 1 / 297.0
  remarks := some "Adopted by IUGG 1924 in Madrid. Based on Hayford 1909/1910 figures."

/-- WGS 84 ellipsoid, EPSG 7030. -/
def WGS_84 : Ellipsoid where
  name := "WGS 84"
  code := 7030
  a := 6378137.0
  f := 1 / 298.257223563
  remarks := some "1/f derived from four defining parameters semi-major axis; C20 = -484.16685*10e-6; earth's angular velocity ω = 7292115e-11 rad/sec; gravitational constant GM = 3986005e8 m*m*m/s/s. In 1994 new GM = 3986004.418e8 m*m*m/s/s but a and 1/f retained."

/-! ### Built-in datum catalog (`geodesy/datum.py`) -/

/-- European Datum 1950, EPSG 6230. -/
def ED50 : Datum where
  name := "European Datum 1950"
  code := 6230
  ellipsoid := INTERNATIONAL_1924
  to_wgs84 := some ⟨-87.0, -98.0, -121.0, 0.0, 0.0, 0.0, 0.0⟩

/-- European Terrestrial Reference System 1989 ensemble, EPSG 6258. -/
def ETRS89 : Datum where
  name := "European Terrestrial Reference System 1989 ensemble"
  code := 6258
  ellipsoid := GRS_1980
  to_wgs84 := some ⟨0.0, 0.0, 0.0, 0.0, 0.0, 0.0, 0.0⟩
  remarks := some "Has been realized through ETRF89, ETRF90, ETRF91, ETRF92, ETRF93, ETRF94, ETRF96, ETRF97, ETRF2000, ETRF2005, ETRF2014 and ETRF2020. This 'ensemble' covers any or all of these realizations without distinction."

/-- North American Datum 1927, EPSG 6267. -/
def NAD27 : Datum where
  name := "North American Datum 1927"
  code := 6267
  ellipsoid := CLARKE_1866
  to_wgs84 := some ⟨-8.0, 160.0, 176.0, 0.0, 0.0, 0.0, 0.0⟩
  remarks := some "In United States (USA) and Canada, replaced by North American Datum 1983 (NAD83) (code 6269) ; in Mexico, replaced by Mexican Datum of 1993 (code 1042)."

/-- North American Datum 1983, EPSG 6269. -/
def NAD83 : Datum where
  name := "North American Datum 1983"
  code := 6269
  ellipsoid := GRS_1980
  to_wgs84 := some ⟨0.0, 0.0, 0.0, 0.0, 0.0, 0.0, 0.0⟩
  remarks := some "Although the 1986 adjustment included connections to Greenland and Mexico, it has not been adopted there. In Canada and US, replaced NAD27."

/-- Ordnance Survey of Great Britain 1936, EPSG 6277. -/
def OSGB36 : Datum where
  name := "Ordnance Survey of Great Britain 1936"
  code := 6277
  ellipsoid := AIRY_1830
  to_wgs84 := some ⟨446.448, -125.157, 542.060, 0.1502, 0.2470, 0.8421, -20.4894⟩
  remarks := some "The average accuracy of OSTN compared to the old triangulation network (down to 3rd order) is 0.1m. With the introduction of OSTN15, the area for OGSB36 has effectively been extended from Britain to cover the adjacent UK Continental Shelf."

/-- World Geodetic System 1984 ensemble, EPSG 6326. -/
def WGS84 : Datum where
  name := "World Geodetic System 1984 ensemble"
  code := 6326
  ellipsoid := WGS_84
  to_wgs84 := some ⟨0.0, 0.0, 0.0, 0.0, 0.0, 0.0, 0.0⟩
  remarks := some "EPSG::6326 has been the then current realization. No distinction is made between the original and subsequent (G730, G873, G1150, G1674, G1762, G2139 and G2296) WGS 84 frames. Since 1997, WGS 84 has been maintained within 10cm of the then current ITRF."

/-- The five built-in ellipsoids, in source order. -/
def builtinEllipsoids : List Ellipsoid :=
  [AIRY_1830, CLARKE_1866, GRS_1980, INTERNATIONAL_1924, WGS_84]

/-- The six built-in datums, in source order. -/
def builtinDatums : List Datum :=
  [ED50, ETRS89, NAD27, NAD83, OSGB36, WGS84]

/-! ### Basic algebraic facts about the derived accessors -/

lemma e2_eq_one_sub_sq (el : Ellipsoid) : el.e2 = 1 - (1 - el.f) ^ 2 := by
  simp only [Ellipsoid.e2]; ring

lemma e2_nonneg {el : Ellipsoid} (h0 : 0 ≤ el.f) (h1 : el.f < 1) : 0 ≤ el.e2 := by
  rw [e2_eq_one_sub_sq]; nlinarith

lemma e2_lt_one {el : Ellipsoid} (h1 : el.f < 1) : el.e2 < 1 := by
  rw [e2_eq_one_sub_sq]; nlinarith

/-- C1: every derived accessor computes exactly the specified formula on
the stored fields: `b = a * (1 - f)`, `e2 = 2f - f²`, `e = sqrt e2`,
`ep2 = e2 / (1 - e2)`, for flattening in the documented range. -/
theorem derived_accessor_formulas (el : Ellipsoid) (_h0 : 0 ≤ el.f) (_h1 : el.f < 1) :
    el.b = el.a * (1 - el.f) ∧
    el.e2 = 2 * el.f - el.f ^ 2 ∧
    el.e = Real.sqrt (el.e2 : ℝ) ∧
    el.ep2 = el.e2 / (1 - el.e2) := by
  refine ⟨rfl, rfl, ?_, rfl⟩
  rw [Ellipsoid.e, Real.sqrt_eq_rpow]
  norm_num

/-- Witness for C1 at a concrete ellipsoid. -/
theorem derived_accessor_formulas_witness :
    let el : Ellipsoid := ⟨"test", 1, 2, 1 / 2, none⟩
    el.b = el.a * (1 - el.f) ∧
    el.e2 = 2 * el.f - el.f ^ 2 ∧
    el.e = Real.sqrt (el.e2 : ℝ) ∧
    el.ep2 = el.e2 / (1 - el.e2) :=
  derived_accessor_formulas ⟨"test", 1, 2, 1 / 2, none⟩ (by norm_num) (by norm_num)

/-- C2: for `a > 0` and `0 ≤ f < 1` the derived accessors are total:
`e2` lies in `[0, 1)`, so the divisor `1 - e2` of `ep2` is nonzero and
the square-root argument of `e` is non-negative. -/
theorem derived_accessors_total (el : Ellipsoid) (_ha : 0 < el.a)
    (h0 : 0 ≤ el.f) (h1 : el.f < 1) :
    0 ≤ el.e2 ∧ el.e2 < 1 ∧ 1 - el.e2 ≠ 0 ∧ (0 : ℝ) ≤ (el.e2 : ℝ) := by
  have hnn := e2_nonneg h0 h1
  have hlt := e2_lt_one h1
  exact ⟨hnn, hlt, by linarith, by exact_mod_cast hnn⟩

/-- Witness for C2 at a concrete ellipsoid. -/
theorem derived_accessors_total_witness :
    let el : Ellipsoid := ⟨"test", 1, 2, 1 / 2, none⟩
    0 ≤ el.e2 ∧ el.e2 < 1 ∧ 1 - el.e2 ≠ 0 ∧ (0 : ℝ) ≤ (el.e2 : ℝ) :=
  derived_accessors_total ⟨"test", 1, 2, 1 / 2, none⟩
    (by norm_num) (by norm_num) (by norm_num)

/-- C5: a zero flattening degenerates to a sphere: `b = a` and
`e2 = e = ep2 = 0`. -/
theorem sphere_degeneracy (el : Ellipsoid) (hf : el.f = 0) :
    el.b = el.a ∧ el.e2 = 0 ∧ el.e = 0 ∧ el.ep2 = 0 := by
  have he2 : el.e2 = 0 := by simp [Ellipsoid.e2, hf]
  refine ⟨by simp [Ellipsoid.b, hf], he2, ?_, by simp [Ellipsoid.ep2, he2]⟩
  rw [Ellipsoid.e, he2]
  norm_num

/-- Witness for C5 at a concrete ellipsoid with `f = 0`. -/
theorem sphere_degeneracy_witness :
    let el : Ellipsoid := ⟨"sphere", 1, 5, 0, none⟩
    el.b = el.a ∧ el.e2 = 0 ∧ el.e = 0 ∧ el.ep2 = 0 :=
  sphere_degeneracy ⟨"sphere", 1, 5, 0, none⟩ rfl

/-- C6: for `a > 0` and `0 ≤ f < 1`, the semi-minor axis satisfies
`0 ≤ b ≤ a`, with `b = a` exactly when `f = 0`. -/
theorem semi_minor_axis_bounds (el : Ellipsoid) (ha : 0 < el.a)
    (h0 : 0 ≤ el.f) (h1 : el.f < 1) :
    0 ≤ el.b ∧ el.b ≤ el.a ∧ (el.b = el.a ↔ el.f = 0) := by
  refine ⟨?_, ?_, ?_⟩
  · have hf1 : 0 < 1 - el.f := by linarith
    rw [Ellipsoid.b]
    positivity
  · have : el.a * (1 - el.f) ≤ el.a * 1 := by
      apply mul_le_mul_of_nonneg_left (by linarith) (le_of_lt ha)
    simpa [Ellipsoid.b] using this
  · constructor
    · intro hb
      have : el.a * el.f = 0 := by
        have := hb
        simp only [Ellipsoid.b] at this
        nlinarith
      rcases mul_eq_zero.mp this with h | h
      · exact absurd h (ne_of_gt ha)
      · exact h
    · intro hf; simp [Ellipsoid.b, hf]

/-- Witness for C6 at a concrete ellipsoid. -/
theorem semi_minor_axis_bounds_witness :
    let el : Ellipsoid := ⟨"test", 1, 2, 1 / 2, none⟩
    0 ≤ el.b ∧ el.b ≤ el.a ∧ (el.b = el.a ↔ el.f = 0) :=
  semi_minor_axis_bounds ⟨"test", 1, 2, 1 / 2, none⟩
    (by norm_num) (by norm_num) (by norm_num)

/-- C7: the direct formula `e2 = 2f - f²` agrees exactly (over the
rationals) with the geometric definition `(a² - b²) / a²`. -/
theorem e2_geometric (el : Ellipsoid) (ha : 0 < el.a) :
    el.e2 = (el.a ^ 2 - el.b ^ 2) / el.a ^ 2 := by
  have ha' : el.a ≠ 0 := ne_of_gt ha
  simp only [Ellipsoid.e2, Ellipsoid.b]
  field_simp
  ring

/-- Witness for C7 at a concrete ellipsoid. -/
theorem e2_geometric_witness :
    let el : Ellipsoid := ⟨"test", 1, 2, 1 / 2, none⟩
    el.e2 = (el.a ^ 2 - el.b ^ 2) / el.a ^ 2 :=
  e2_geometric ⟨"test", 1, 2, 1 / 2, none⟩ (by norm_num)

/-! ### Decimal rendering of natural numbers

`Nat.repr` (used by the f-string interpolation of `code` in both `urn`
accessors) is characterised against `Nat.digits`: the rendered string is
the base-10 digit list, most significant first, with no sign, no leading
zero, and its decimal value is the rendered number. -/

/-- The canonical decimal digit-character list of `n`, most significant
digit first. -/
def digitsOf (n : ℕ) : List Char :=
  if n = 0 then ['0'] else ((Nat.digits 10 n).map Nat.digitChar).reverse

/-- Decimal value of a digit-character list, most significant first. -/
def decVal (l : List Char) : ℕ :=
  l.foldl (fun acc c => 10 * acc + (c.toNat - Char.toNat '0')) 0

lemma digitChar_toNat_sub {d : ℕ} (h : d < 10) :
    (Nat.digitChar d).toNat - Char.toNat '0' = d := by
  interval_cases d <;> rfl

lemma digitChar_isDigit {d : ℕ} (h : d < 10) : (Nat.digitChar d).isDigit = true := by
  interval_cases d <;> rfl

lemma digitChar_eq_zero_iff {d : ℕ} (h : d < 10) : Nat.digitChar d = '0' ↔ d = 0 := by
  interval_cases d <;> decide

lemma digitsOf_succ {n : ℕ} (h10 : 10 ≤ n) :
    digitsOf n = digitsOf (n / 10) ++ [Nat.digitChar (n % 10)] := by
  have hn : n ≠ 0 := by omega
  have hq : n / 10 ≠ 0 := by omega
  rw [digitsOf, digitsOf, if_neg hn, if_neg hq,
    Nat.digits_def' (by norm_num : (1 : ℕ) < 10) (Nat.pos_of_ne_zero hn)]
  simp

lemma toDigitsCore_eq (f : ℕ) : ∀ (n : ℕ) (acc : List Char), n < f →
    Nat.toDigitsCore 10 f n acc = digitsOf n ++ acc := by
  induction f with
  | zero => intro n acc h; omega
  | succ f ih =>
    intro n acc h
    by_cases hd : n / 10 = 0
    · have hn10 : n < 10 := by omega
      show (if n / 10 = 0 then Nat.digitChar (n % 10) :: acc
        else Nat.toDigitsCore 10 f (n / 10) (Nat.digitChar (n % 10) :: acc)) =
        digitsOf n ++ acc
      rw [if_pos hd]
      by_cases hn : n = 0
      · subst hn; rfl
      · rw [digitsOf, if_neg hn,
          Nat.digits_def' (by norm_num : (1 : ℕ) < 10) (Nat.pos_of_ne_zero hn), hd]
        simp
    · have h10 : 10 ≤ n := by omega
      have hq : n / 10 < f := by omega
      show (if n / 10 = 0 then Nat.digitChar (n % 10) :: acc
        else Nat.toDigitsCore 10 f (n / 10) (Nat.digitChar (n % 10) :: acc)) =
        digitsOf n ++ acc
      rw [if_neg hd, ih (n / 10) _ hq, digitsOf_succ h10, List.append_assoc]
      rfl

lemma repr_eq_digitsOf (n : ℕ) : Nat.repr n = (digitsOf n).asString := by
  rw [Nat.repr, Nat.toDigits, toDigitsCore_eq (n + 1) n [] (Nat.lt_succ_self n),
    List.append_nil]

lemma data_repr (n : ℕ) : (Nat.repr n).data = digitsOf n := by
  rw [repr_eq_digitsOf]; rfl

lemma mem_digitsOf_isDigit {n : ℕ} {c : Char} (hc : c ∈ digitsOf n) :
    c.isDigit = true := by
  rw [digitsOf] at hc
  by_cases hn : n = 0
  · rw [if_pos hn] at hc
    simp only [List.mem_singleton] at hc
    subst hc; rfl
  · rw [if_neg hn, List.mem_reverse, List.mem_map] at hc
    obtain ⟨d, hd, rfl⟩ := hc
    exact digitChar_isDigit (Nat.digits_lt_base (by norm_num) hd)

lemma digitsOf_head_ne_zero {n : ℕ} (hn : n ≠ 0) :
    (digitsOf n).head? ≠ some '0' := by
  rw [digitsOf, if_neg hn, List.head?_reverse, List.getLast?_map]
  have hne : Nat.digits 10 n ≠ [] := Nat.digits_ne_nil_iff_ne_zero.mpr hn
  rw [List.getLast?_eq_getLast _ hne]
  intro hcontra
  have hlast := Nat.getLast_digit_ne_zero 10 hn
  have hmem : (Nat.digits 10 n).getLast hne ∈ Nat.digits 10 n :=
    List.getLast_mem hne
  have hlt : (Nat.digits 10 n).getLast hne < 10 :=
    Nat.digits_lt_base (by norm_num) hmem
  exact hlast ((digitChar_eq_zero_iff hlt).mp (by
    simpa using hcontra))

lemma foldr_digitChar_map (L : List ℕ) (h : ∀ d ∈ L, d < 10) :
    (L.map Nat.digitChar).foldr
      (fun c acc => 10 * acc + (c.toNat - Char.toNat '0')) 0 =
      Nat.ofDigits 10 L := by
  induction L with
  | nil => rfl
  | cons d L ih =>
    simp only [List.map_cons, List.foldr_cons, Nat.ofDigits_cons,
      ih (fun x hx => h x (List.mem_cons_of_mem _ hx)),
      digitChar_toNat_sub (h d (List.mem_cons_self _ _))]
    ring

lemma decVal_digitsOf (n : ℕ) : decVal (digitsOf n) = n := by
  by_cases hn : n = 0
  · subst hn; rfl
  · rw [digitsOf, if_neg hn, decVal, List.foldl_reverse]
    exact (foldr_digitChar_map (Nat.digits 10 n)
      (fun d hd => Nat.digits_lt_base (by norm_num) hd)).trans
      (Nat.ofDigits_digits 10 n)

/-- C3: each URN accessor returns the exact prefix followed by the
decimal rendering of the stored code; the code part is all decimal
digits, unsigned, has no leading zero for a positive code, and its
decimal value is exactly the stored integer; the two catalog examples
render as the spec's literal strings. -/
theorem urn_format :
    (∀ el : Ellipsoid,
      el.urn = "urn:ogc:def:ellipsoid:EPSG::" ++ Nat.repr el.code ∧
      (∀ c ∈ (Nat.repr el.code).data, c.isDigit = true) ∧
      (el.code ≠ 0 → (Nat.repr el.code).data.head? ≠ some '0') ∧
      decVal (Nat.repr el.code).data = el.code) ∧
    (∀ d : Datum,
      d.urn = "urn:ogc:def:datum:EPSG::" ++ Nat.repr d.code ∧
      (∀ c ∈ (Nat.repr d.code).data, c.isDigit = true) ∧
      (d.code ≠ 0 → (Nat.repr d.code).data.head? ≠ some '0') ∧
      decVal (Nat.repr d.code).data = d.code) ∧
    WGS_84.urn = "urn:ogc:def:ellipsoid:EPSG::7030" ∧
    WGS84.urn = "urn:ogc:def:datum:EPSG::6326" := by
  refine ⟨fun el => ⟨rfl, ?_, ?_, ?_⟩, fun d => ⟨rfl, ?_, ?_, ?_⟩, ?_, ?_⟩
  · rw [data_repr]; exact fun c hc => mem_digitsOf_isDigit hc
  · rw [data_repr]; exact digitsOf_head_ne_zero
  · rw [data_repr]; exact decVal_digitsOf _
  · rw [data_repr]; exact fun c hc => mem_digitsOf_isDigit hc
  · rw [data_repr]; exact digitsOf_head_ne_zero
  · rw [data_repr]; exact decVal_digitsOf _
  · rfl
  · rfl

/-- Witness for C3: the no-leading-zero clause applied to the WGS 84
ellipsoid code, 7030. -/
theorem urn_format_witness : (Nat.repr WGS_84.code).data.head? ≠ some '0' :=
  (urn_format.1 WGS_84).2.2.1 (by decide)

/-! ### Structural equality and hashing of the frozen dataclasses

`dataclass(frozen=True)` generates `__eq__` comparing the tuple of
declared fields and `__hash__` hashing that same tuple. The concrete
hash mixing is interpreter-internal; it is modelled as a fixed
deterministic combination of the fields, which is all the spec relies
on. `cached_property` writes to the instance `__dict__`, which neither
generated method reads; `EllipsoidObj` carries one flag per cacheable
property to make that observable. -/

/-- One mixing step of the modelled hash. -/
def natMix (h v : ℕ) : ℕ := (h * 1000003 + v) % 2 ^ 64

/-- Modelled hash of a string. -/
def strHash (s : String) : ℕ := s.data.foldl (fun h c => natMix h c.toNat) 5381

/-- Modelled hash of a rational. -/
def ratHash (q : ℚ) : ℕ :=
  natMix q.num.natAbs (natMix (if q.num < 0 then 1 else 0) q.den)

/-- Modelled hash of an optional string (`None` vs a string). -/
def optStrHash : Option String → ℕ
  | none => 0
  | some s => natMix 1 (strHash s)

/-- The tuple of declared `Ellipsoid` dataclass fields. -/
def Ellipsoid.fields (el : Ellipsoid) : String × Nat × ℚ × ℚ × Option String :=
  (el.name, el.code, el.a, el.f, el.remarks)

/-- `Ellipsoid.__eq__`: field-tuple comparison. -/
def Ellipsoid.pyEq (x y : Ellipsoid) : Bool := decide (x.fields = y.fields)

/-- `Ellipsoid.__hash__`: a deterministic function of the field tuple. -/
def Ellipsoid.pyHash (el : Ellipsoid) : ℕ :=
  natMix (strHash el.name) (natMix el.code
    (natMix (ratHash el.a) (natMix (ratHash el.f) (optStrHash el.remarks))))

/-- The tuple of declared `HelmertParameters` dataclass fields. -/
def HelmertParameters.fields (p : HelmertParameters) :
    ℚ × ℚ × ℚ × ℚ × ℚ × ℚ × ℚ :=
  (p.tx, p.ty, p.tz, p.rx, p.ry, p.rz, p.s)

/-- `HelmertParameters.__eq__`: field-tuple comparison. -/
def HelmertParameters.pyEq (x y : HelmertParameters) : Bool :=
  decide (x.fields = y.fields)

/-- `HelmertParameters.__hash__`: a deterministic function of the tuple. -/
def HelmertParameters.pyHash (p : HelmertParameters) : ℕ :=
  natMix (ratHash p.tx) (natMix (ratHash p.ty) (natMix (ratHash p.tz)
    (natMix (ratHash p.rx) (natMix (ratHash p.ry)
      (natMix (ratHash p.rz) (ratHash p.s))))))

/-- Modelled hash of the optional Helmert parameter set. -/
def optHelmertHash : Option HelmertParameters → ℕ
  | none => 0
  | some p => natMix 1 p.pyHash

/-- The tuple of declared `Datum` dataclass fields; the referenced
ellipsoid takes part by value. -/
def Datum.fields (d : Datum) :
    String × Nat × Ellipsoid × Option HelmertParameters × Option String :=
  (d.name, d.code, d.ellipsoid, d.to_wgs84, d.remarks)

/-- `Datum.__eq__`: field-tuple comparison. -/
def Datum.pyEq (x y : Datum) : Bool := decide (x.fields = y.fields)

/-- `Datum.__hash__`: a deterministic function of the field tuple. -/
def Datum.pyHash (d : Datum) : ℕ :=
  natMix (strHash d.name) (natMix d.code (natMix d.ellipsoid.pyHash
    (natMix (optHelmertHash d.to_wgs84) (optStrHash d.remarks))))

/-- An `Ellipsoid` instance at runtime: the stored dataclass fields plus
one flag per `cached_property` recording whether it has been accessed
(its cached value is a function of the fields, so a flag suffices). -/
structure EllipsoidObj where
  val : Ellipsoid
  bCached : Bool
  e2Cached : Bool
  eCached : Bool
  ep2Cached : Bool
  urnCached : Bool

/-- Equality of ellipsoid objects reads only the dataclass fields,
never the `__dict__` cache. -/
def EllipsoidObj.pyEq (x y : EllipsoidObj) : Bool := x.val.pyEq y.val

/-- Hashing of ellipsoid objects reads only the dataclass fields. -/
def EllipsoidObj.pyHash (x : EllipsoidObj) : ℕ := x.val.pyHash

lemma ellipsoid_fields_eq_iff {x y : Ellipsoid} : x.fields = y.fields ↔ x = y := by
  cases x; cases y
  simp only [Ellipsoid.fields, Prod.mk.injEq, Ellipsoid.mk.injEq]

lemma helmert_fields_eq_iff {x y : HelmertParameters} :
    x.fields = y.fields ↔ x = y := by
  cases x; cases y
  simp only [HelmertParameters.fields, Prod.mk.injEq, HelmertParameters.mk.injEq]

lemma datum_fields_eq_iff {x y : Datum} : x.fields = y.fields ↔ x = y := by
  cases x; cases y
  simp only [Datum.fields, Prod.mk.injEq, Datum.mk.injEq]

/-- C4: for each of the three frozen dataclasses, two values with
identical stored fields compare equal and hash identically, and two
values differing in at least one stored field compare unequal; for
`Ellipsoid` this is independent of which cached properties have been
accessed on either side. -/
theorem structural_eq_hash :
    (∀ x y : EllipsoidObj,
      (x.pyEq y = true ↔ x.val = y.val) ∧
      (x.val = y.val → x.pyHash = y.pyHash)) ∧
    (∀ x y : Datum, (x.pyEq y = true ↔ x = y) ∧ (x = y → x.pyHash = y.pyHash)) ∧
    (∀ x y : HelmertParameters,
      (x.pyEq y = true ↔ x = y) ∧ (x = y → x.pyHash = y.pyHash)) := by
  refine ⟨fun x y => ⟨?_, ?_⟩, fun x y => ⟨?_, ?_⟩, fun x y => ⟨?_, ?_⟩⟩
  · rw [EllipsoidObj.pyEq, Ellipsoid.pyEq, decide_eq_true_iff]
    exact ellipsoid_fields_eq_iff
  · intro h; rw [EllipsoidObj.pyHash, EllipsoidObj.pyHash, h]
  · rw [Datum.pyEq, decide_eq_true_iff]
    exact datum_fields_eq_iff
  · intro h; rw [h]
  · rw [HelmertParameters.pyEq, decide_eq_true_iff]
    exact helmert_fields_eq_iff
  · intro h; rw [h]

/-- Witness for C4: two WGS 84 ellipsoid objects, one with every
property cached and one with none, compare equal and hash identically,
and hold on a concretely differing pair the equality is false. -/
theorem structural_eq_hash_witness :
    (EllipsoidObj.mk WGS_84 true true true true true).pyEq
      (EllipsoidObj.mk WGS_84 false false false false false) = true ∧
    (EllipsoidObj.mk WGS_84 true true true true true).pyHash =
      (EllipsoidObj.mk WGS_84 false false false false false).pyHash :=
  ⟨((structural_eq_hash.1 _ _).1).mpr rfl, (structural_eq_hash.1 _ _).2 rfl⟩

/-- C8: the built-in catalog is exactly 5 ellipsoids with pairwise
distinct EPSG codes {7001, 7008, 7019, 7022, 7030}, each with `a > 0`
and `0 < f < 1`, and exactly 6 datums with pairwise distinct EPSG codes
{6230, 6258, 6267, 6269, 6277, 6326}, each with a non-null `to_wgs84`. -/
theorem builtin_catalog_invariants :
    builtinEllipsoids.length = 5 ∧
    builtinEllipsoids.map Ellipsoid.code = [7001, 7008, 7019, 7022, 7030] ∧
    (builtinEllipsoids.map Ellipsoid.code).Nodup ∧
    (∀ el ∈ builtinEllipsoids, 0 < el.a ∧ 0 < el.f ∧ el.f < 1) ∧
    builtinDatums.length = 6 ∧
    builtinDatums.map Datum.code = [6230, 6258, 6267, 6269, 6277, 6326] ∧
    (builtinDatums.map Datum.code).Nodup ∧
    (∀ d ∈ builtinDatums, d.to_wgs84 ≠ none) := by
  refine ⟨rfl, rfl, by decide, ?_, rfl, rfl, by decide, ?_⟩
  · intro el hel
    simp only [builtinEllipsoids, List.mem_cons, List.not_mem_nil, or_false] at hel
    rcases hel with rfl | rfl | rfl | rfl | rfl <;>
      refine ⟨by norm_num [AIRY_1830, CLARKE_1866, GRS_1980, INTERNATIONAL_1924, WGS_84],
        by norm_num [AIRY_1830, CLARKE_1866, GRS_1980, INTERNATIONAL_1924, WGS_84],
        by norm_num [AIRY_1830, CLARKE_1866, GRS_1980, INTERNATIONAL_1924, WGS_84]⟩
  · intro d hd
    simp only [builtinDatums, List.mem_cons, List.not_mem_nil, or_false] at hd
    rcases hd with rfl | rfl | rfl | rfl | rfl | rfl <;> simp [ED50, ETRS89, NAD27,
      NAD83, OSGB36, WGS84]

/-- Witness for C8: the catalog facts applied to Airy 1830 and OSGB36. -/
theorem builtin_catalog_invariants_witness :
    (0 < AIRY_1830.a ∧ 0 < AIRY_1830.f ∧ AIRY_1830.f < 1) ∧
    OSGB36.to_wgs84 ≠ none :=
  ⟨builtin_catalog_invariants.2.2.2.1 AIRY_1830 (List.mem_cons_self _ _),
    builtin_catalog_invariants.2.2.2.2.2.2.2 OSGB36
      (by simp [builtinDatums])⟩

/-- C9: the OSGB36 Helmert parameter set to WGS84 is exactly
`tx=446.448, ty=-125.157, tz=542.060, rx=0.1502, ry=0.2470, rz=0.8421,
s=-20.4894`. -/
theorem osgb36_helmert :
    OSGB36.to_wgs84 =
      some ⟨446.448, -125.157, 542.060, 0.1502, 0.2470, 0.8421, -20.4894⟩ :=
  rfl

/-- C10: `add_one` returns its integer input plus one. -/
theorem add_one_spec : ∀ x : ℤ, add_one x = x + 1 := fun _ => rfl

end Geodesy
